import Mathlib

/-!
Shallow embedding of the core data layer of the Pressboxd website
(`src/db.py`): show catalog, rating / review / vote ledgers, role
directory, and the ranking/aggregation queries, together with proofs of
the specification claims about them.

SQLite rows become Lean structures, tables become lists of rows, and each
mutating Python function becomes a pure state-passing function on a `DB`
record.  The wall clock (`now_ts`) is passed in explicitly as a `ts`
argument.  Numeric SQL values are modelled with `Int`/`Nat`/`Rat`
(SQLite `ROUND` is round-half-away-from-zero, modelled exactly on `ℚ`).
-/

namespace Pressboxd

/-! ### Python string primitives

`str.strip`, `str.lower`, and the two regex substitutions used by
`norm_key` / `_slugify`, modelled on `List Char`. -/

/-- Whitespace characters recognised by Python's `str.strip()` / `\s`
(ASCII fragment). -/
def pyIsSpace (c : Char) : Bool :=
  c = ' ' || c = '\t' || c = '\n' || c = '\r' || c = '\x0b' || c = '\x0c'

/-- Python `str.strip()` on a character list: drop leading and trailing whitespace. -/
def stripList (l : List Char) : List Char :=
  ((l.dropWhile pyIsSpace).reverse.dropWhile pyIsSpace).reverse

/-- Python `str.strip()` on strings. -/
def pyStrip (s : String) : String :=
  String.mk (stripList s.data)

/-- Python `str.strip("-")` on a character list. -/
def stripHyphens (l : List Char) : List Char :=
  ((l.dropWhile (· = '-')).reverse.dropWhile (· = '-')).reverse

/-- Collapse every maximal run of equal marker characters `m` to a single
occurrence (the second half of a `re.sub(r"X+", "m", s)` after mapping
every `X` character to `m`). -/
def squeezeRuns (m : Char) : List Char → List Char
  | [] => []
  | a :: rest =>
    match rest with
    | [] => [a]
    | b :: _ => if a = m ∧ b = m then squeezeRuns m rest else a :: squeezeRuns m rest

/-- Embedding of `re.sub(r"\s+", " ", s)`: replace each maximal whitespace run by one space. -/
def collapseWs (l : List Char) : List Char :=
  squeezeRuns ' ' (l.map (fun c => if pyIsSpace c then ' ' else c))

/-- Python `str.lower()` / SQL `LOWER`: character-wise ASCII lower-casing. -/
def strLower (s : String) : String :=
  String.mk (s.data.map Char.toLower)

/-- Characters kept by `re.sub(r"[^a-z0-9 \-]", "", s)`. -/
def normKeep (c : Char) : Bool :=
  ('a' ≤ c && c ≤ 'z') || ('0' ≤ c && c ≤ '9') || c = ' ' || c = '-'

/-- The inner `norm` of `norm_key` in `db.py`:
`s.strip().lower()`, collapse whitespace runs to a single space, delete
characters outside `[a-z0-9 -]`, strip again. -/
def normStr (s : String) : String :=
  let l := stripList s.data
  let l := l.map Char.toLower
  let l := collapseWs l
  let l := l.filter normKeep
  String.mk (stripList l)

/-- Embedding of `norm_key(year, corps, title)` from `db.py`: the derived uniqueness
fingerprint `f"{int(year)}|{norm(corps)}|{norm(title)}"`. -/
def norm_key (year : Int) (corps title : String) : String :=
  toString year ++ "|" ++ normStr corps ++ "|" ++ normStr title

/-- Alphanumeric characters kept verbatim by `_slugify`
(`[a-z0-9]`, applied after lower-casing). -/
def slugKeep (c : Char) : Bool :=
  ('a' ≤ c && c ≤ 'z') || ('0' ≤ c && c ≤ '9')

/-- Embedding of `_slugify(name)` from `db.py`: strip and lower-case, collapse each
run of non-alphanumerics to a single hyphen, strip hyphens, and default
to `"role"` when empty. -/
def slugify (name : String) : String :=
  let l := (stripList name.data).map Char.toLower
  let l := squeezeRuns '-' (l.map (fun c => if slugKeep c then c else '-'))
  let l := stripHyphens l
  if l = [] then "role" else String.mk l

/-! ### Data model: rows and database state -/

/-- A row of the `shows` table. -/
structure ShowRow where
  id : Nat
  title : String
  corps : String
  year : Int
  poster_url : Option String
  nkey : String
  created_ts : Nat
  deriving Repr, DecidableEq

/-- A row of the `ratings` table (`rating_half` is the half-star value). -/
structure RatingRow where
  show_id : Nat
  user_id : Nat
  rating_half : Int
  ts : Nat
  deriving Repr, DecidableEq

/-- A row of the `reviews` table. -/
structure ReviewRow where
  show_id : Nat
  user_id : Nat
  review_text : String
  ts : Nat
  deriving Repr, DecidableEq

/-- A row of the `review_votes` table. -/
structure VoteRow where
  show_id : Nat
  review_user_id : Nat
  voter_user_id : Nat
  vote : Int
  ts : Nat
  deriving Repr, DecidableEq

/-- A row of the `roles` table. -/
structure RoleRow where
  id : Nat
  name : String
  slug : String
  color : Option String
  created_ts : Nat
  deriving Repr, DecidableEq

/-- The database state: one list per table plus autoincrement counters. -/
structure DB where
  shows : List ShowRow
  ratings : List RatingRow
  reviews : List ReviewRow
  votes : List VoteRow
  roles : List RoleRow
  nextShowId : Nat
  nextRoleId : Nat
  deriving Repr, DecidableEq

/-- The empty database. -/
def DB.empty : DB :=
  ⟨[], [], [], [], [], 1, 1⟩

instance {ε α : Type} [DecidableEq ε] [DecidableEq α] : DecidableEq (Except ε α) := by
  intro a b
  cases a with
  | ok x =>
    cases b with
    | ok y => exact if h : x = y then .isTrue (by rw [h]) else .isFalse (by simp [h])
    | error y => exact .isFalse (by simp)
  | error x =>
    cases b with
    | ok y => exact .isFalse (by simp)
    | error y => exact if h : x = y then .isTrue (by rw [h]) else .isFalse (by simp [h])

/-- SQL `UPDATE ... WHERE p`: apply `f` to every row matching `p`. -/
def updateWhere {α : Type} (p : α → Bool) (f : α → α) (l : List α) : List α :=
  l.map fun a => if p a then f a else a

/-- SQL `DELETE ... WHERE p`: drop every row matching `p`. -/
def deleteWhere {α : Type} (p : α → Bool) (l : List α) : List α :=
  l.filter fun a => ¬ p a

/-! ### Show catalog: `add_show` -/

/-- The cleanup `(poster_url or "").strip() or None` from `add_show` / `update_show`. -/
def posterClean (poster_url : Option String) : Option String :=
  let p := pyStrip (poster_url.getD "")
  if p = "" then none else some p

/-- The stored value counts as "no poster" for the backfill test in
`add_show`: `row["poster_url"] is None or str(row["poster_url"]).strip() == ""`. -/
def noPoster : Option String → Bool
  | none => true
  | some p => pyStrip p = ""

/-- Embedding of `add_show(conn, year, corps, title, poster_url)` from `db.py`.
Returns the new state and the `(created, show_id, status)` triple.  The
`INSERT` succeeds exactly when no stored show carries the computed
`norm_key` (the `UNIQUE` constraint); otherwise the
`sqlite3.IntegrityError` branch looks the duplicate up and optionally
backfills its poster. -/
def add_show (db : DB) (year : Int) (corps title : String)
    (poster_url : Option String) (ts : Nat) : DB × (Bool × Option Nat × String) :=
  let corps_s := pyStrip corps
  let title_s := pyStrip title
  let poster_s := posterClean poster_url
  if corps_s = "" ∨ title_s = "" then
    (db, (false, none, "Missing corps or title."))
  else
    let key := norm_key year corps_s title_s
    match db.shows.find? (fun s => s.nkey = key) with
    | none =>
      let sid := db.nextShowId
      ({ db with
          shows := db.shows ++ [⟨sid, title_s, corps_s, year, poster_s, key, ts⟩],
          nextShowId := sid + 1 },
       (true, some sid, "Inserted"))
    | some row =>
      if poster_s.isSome ∧ noPoster row.poster_url then
        ({ db with
            shows := updateWhere (fun s => s.id = row.id)
              (fun s => { s with poster_url := poster_s }) db.shows },
         (false, some row.id, "Duplicate (poster updated)"))
      else
        (db, (false, some row.id, "Duplicate"))

/-! ### Rating ledger: `upsert_rating` -/

/-- Membership test for the `(show_id, user_id)` rating key. -/
def ratingKeyIs (sid uid : Nat) (r : RatingRow) : Bool :=
  r.show_id = sid ∧ r.user_id = uid

/-- Embedding of `upsert_rating(conn, show_id, user_id, rating_half)` from `db.py`:
clamp to `[0, 10]`, then `INSERT ... ON CONFLICT(show_id, user_id) DO
UPDATE` on value and timestamp. -/
def upsert_rating (db : DB) (sid uid : Nat) (rating_half : Int) (ts : Nat) : DB :=
  let rh := max 0 (min 10 rating_half)
  if db.ratings.any (ratingKeyIs sid uid) then
    { db with
        ratings := updateWhere (ratingKeyIs sid uid)
          (fun r => { r with rating_half := rh, ts := ts }) db.ratings }
  else
    { db with ratings := db.ratings ++ [⟨sid, uid, rh, ts⟩] }

/-! ### Review ledger: `upsert_review` -/

/-- Membership test for the `(show_id, user_id)` review key. -/
def reviewKeyIs (sid uid : Nat) (r : ReviewRow) : Bool :=
  r.show_id = sid ∧ r.user_id = uid

/-- Embedding of `upsert_review(conn, show_id, user_id, review_text)` from `db.py`:
trim, raise `ValueError` (the spec's `ValidationError`) when the trimmed
text is empty or longer than 5000 characters, otherwise insert-or-update
text and timestamp. -/
def upsert_review (db : DB) (sid uid : Nat) (review_text : String) (ts : Nat) :
    Except String DB :=
  let text := pyStrip review_text
  if text = "" then .error "Review cannot be empty."
  else if text.length > 5000 then .error "Review is too long (max 5000 chars)."
  else .ok <|
    if db.reviews.any (reviewKeyIs sid uid) then
      { db with
          reviews := updateWhere (reviewKeyIs sid uid)
            (fun r => { r with review_text := text, ts := ts }) db.reviews }
    else
      { db with reviews := db.reviews ++ [⟨sid, uid, text, ts⟩] }

/-! ### Vote ledger: `set_review_vote` -/

/-- Membership test for the `(show_id, review_user_id, voter_user_id)` vote key. -/
def voteKeyIs (sid ruid vuid : Nat) (w : VoteRow) : Bool :=
  w.show_id = sid ∧ w.review_user_id = ruid ∧ w.voter_user_id = vuid

/-- Embedding of `set_review_vote(conn, show_id, review_user_id, voter_user_id, vote)`
from `db.py`: normalise the vote (`1 if int(vote) > 0 else -1`), then
insert / delete / update according to the stored row for the key. -/
def set_review_vote (db : DB) (sid ruid vuid : Nat) (vote : Int) (ts : Nat) : DB :=
  let v : Int := if vote > 0 then 1 else -1
  match db.votes.find? (voteKeyIs sid ruid vuid) with
  | none =>
    { db with votes := db.votes ++ [⟨sid, ruid, vuid, v, ts⟩] }
  | some cur =>
    if cur.vote = v then
      { db with votes := deleteWhere (voteKeyIs sid ruid vuid) db.votes }
    else
      { db with
          votes := updateWhere (voteKeyIs sid ruid vuid)
            (fun w => { w with vote := v, ts := ts }) db.votes }

/-- The observable vote state for one key: `none`, or the stored vote value. -/
def voteState (db : DB) (sid ruid vuid : Nat) : Option Int :=
  (db.votes.find? (voteKeyIs sid ruid vuid)).map (·.vote)

/-! ### Role directory: `create_role` -/

/-- The `_HEX_COLOR_RE` match test: `#` followed by exactly six hex digits. -/
def isHexColor (s : String) : Bool :=
  s.data.length = 7 ∧ s.data.take 1 = ['#'] ∧
    (s.data.drop 1).all fun c =>
      ('0' ≤ c && c ≤ '9') || ('a' ≤ c && c ≤ 'f') || ('A' ≤ c && c ≤ 'F')

/-- Embedding of `_clean_hex_color(s)` from `db.py`. -/
def clean_hex_color (s : String) : String :=
  let t := pyStrip s
  if isHexColor t then t else ""

/-- Is some stored role already using this slug? -/
def slugTaken (db : DB) (s : String) : Bool :=
  db.roles.any (fun r => r.slug = s)

/-- The `while` loop of `create_role`: try `base-n`, `base-(n+1)`, … until
a free slug is found.  Fuelled with more candidates than stored roles, so
the fallback case is unreachable (the candidates are pairwise distinct). -/
def freeSlugAux (db : DB) (base : String) : Nat → Nat → String
  | _, 0 => base
  | n, fuel + 1 =>
    let cand := base ++ "-" ++ toString n
    if slugTaken db cand then freeSlugAux db base (n + 1) fuel else cand

/-- Slug-collision resolution of `create_role`: keep the base slug when
free, else append `-2`, `-3`, … until unique. -/
def firstFreeSlug (db : DB) (base : String) : String :=
  if slugTaken db base then freeSlugAux db base 2 (db.roles.length + 1) else base

/-- Embedding of `create_role(conn, name, color)` from `db.py`: validate the name,
derive and de-collide the slug, then `INSERT`.  The `roles.name UNIQUE`
constraint makes the insert raise `sqlite3.IntegrityError` when a role
with the same name already exists; that uncaught error is modelled as
`.error`. -/
def create_role (db : DB) (name color : String) (ts : Nat) : Except String DB :=
  let nm := pyStrip name
  if nm = "" then .error "Role name is required."
  else
    let slug := firstFreeSlug db (slugify nm)
    let col := let c := clean_hex_color color; if c = "" then none else some c
    if db.roles.any (fun r => r.name = nm) then
      .error "UNIQUE constraint failed: roles.name"
    else
      .ok { db with
              roles := db.roles ++ [⟨db.nextRoleId, nm, slug, col, ts⟩],
              nextRoleId := db.nextRoleId + 1 }

/-! ### Aggregation: per-show statistics

`list_shows` / `show_detail` compute
`(COALESCE(AVG(r.rating_half), 0.0) / 2.0) AS avg_rating, COUNT(r.rating_half) AS cnt`
per show; `list_top_shows_with_top_review` computes
`COALESCE(ROUND(AVG(r.rating_half) / 2.0, 2), 0) AS avg_rating`.
`AVG` over the group's integers is an exact rational here; SQLite `ROUND`
is round-half-away-from-zero. -/

/-- The rating rows of one show (the `LEFT JOIN ratings r ON r.show_id = s.id` group). -/
def ratingsFor (db : DB) (sid : Nat) : List RatingRow :=
  db.ratings.filter fun r => r.show_id = sid

/-- SQLite `ROUND(q, 2)`: round half away from zero at two decimals. -/
def round2 (q : ℚ) : ℚ :=
  (if 0 ≤ q then ((⌊q * 100 + 1 / 2⌋ : ℤ) : ℚ) else -((⌊-q * 100 + 1 / 2⌋ : ℤ) : ℚ)) / 100

/-- One result row of the aggregate show queries: the show's columns plus
`avg_rating` and `cnt`. -/
structure ShowStats where
  id : Nat
  title : String
  corps : String
  year : Int
  poster_url : Option String
  cnt : Nat
  avg_rating : ℚ
  deriving Repr, DecidableEq

/-- The aggregate row of `list_shows` / `show_detail` for one show:
`avg_rating = COALESCE(AVG(rating_half), 0.0) / 2.0`, `cnt = COUNT(rating_half)`. -/
def showStatsPlain (db : DB) (s : ShowRow) : ShowStats :=
  let rs := ratingsFor db s.id
  { id := s.id, title := s.title, corps := s.corps, year := s.year,
    poster_url := s.poster_url, cnt := rs.length,
    avg_rating :=
      (if rs.length = 0 then 0
       else (((rs.map RatingRow.rating_half).sum : ℤ) : ℚ) / rs.length) / 2 }

/-- The `show_stats` CTE row of `list_top_shows_with_top_review`:
`avg_rating = COALESCE(ROUND(AVG(rating_half) / 2.0, 2), 0)`. -/
def showStatsRounded (db : DB) (s : ShowRow) : ShowStats :=
  let rs := ratingsFor db s.id
  { id := s.id, title := s.title, corps := s.corps, year := s.year,
    poster_url := s.poster_url, cnt := rs.length,
    avg_rating :=
      if rs.length = 0 then 0
      else round2 ((((rs.map RatingRow.rating_half).sum : ℤ) : ℚ) / rs.length / 2) }

/-- Embedding of `show_detail(conn, show_id)` from `db.py`: the aggregate row for one
show id, `none` when the show does not exist. -/
def show_detail (db : DB) (sid : Nat) : Option ShowStats :=
  (db.shows.find? fun s => s.id = sid).map (showStatsPlain db)

/-! ### `list_shows`: filtering and multi-key ordering -/

/-- The filter `LOWER(s.corps) = LOWER(?)` with the parameter `corps_filter.strip()`. -/
def corpsMatches (corps_filter : String) (s : ShowRow) : Bool :=
  strLower s.corps = strLower (pyStrip corps_filter)

/-- The `ORDER BY` key of `list_shows` for `sort = "year"` (default):
year desc, corps asc (case-folded), title asc. -/
def keyYearDesc (a : ShowStats) : Lex (ℤ × Lex (String × String)) :=
  toLex (-a.year, toLex (strLower a.corps, strLower a.title))

/-- The `ORDER BY` key for `sort = "year_asc"`. -/
def keyYearAsc (a : ShowStats) : Lex (ℤ × Lex (String × String)) :=
  toLex (a.year, toLex (strLower a.corps, strLower a.title))

/-- The `ORDER BY` key for `sort = "corps"`. -/
def keyCorps (a : ShowStats) : Lex (String × Lex (ℤ × String)) :=
  toLex (strLower a.corps, toLex (-a.year, strLower a.title))

/-- The `ORDER BY` key for `list_shows` `sort = "top"`: unrated last,
then avg desc, count desc, year desc, corps asc, title asc. -/
def keyListTop (a : ShowStats) : Lex (ℤ × Lex (ℚ × Lex (ℤ × Lex (ℤ × Lex (String × String))))) :=
  toLex (if a.cnt = 0 then 1 else 0,
    toLex (-a.avg_rating,
      toLex (-(a.cnt : ℤ), toLex (-a.year, toLex (strLower a.corps, strLower a.title)))))

/-- The `ORDER BY` key for `list_shows` `sort = "bottom"`. -/
def keyListBottom (a : ShowStats) : Lex (ℤ × Lex (ℚ × Lex (ℤ × Lex (ℤ × Lex (String × String))))) :=
  toLex (if a.cnt = 0 then 1 else 0,
    toLex (a.avg_rating,
      toLex (-(a.cnt : ℤ), toLex (-a.year, toLex (strLower a.corps, strLower a.title)))))

/-- The comparator `list_shows` sorts with, per `sort` mode (unknown modes
fall back to the default year-descending order). -/
def listShowsLe (sort : String) (a b : ShowStats) : Bool :=
  if sort = "corps" then decide (keyCorps a ≤ keyCorps b)
  else if sort = "top" then decide (keyListTop a ≤ keyListTop b)
  else if sort = "bottom" then decide (keyListBottom a ≤ keyListBottom b)
  else if sort = "year_asc" then decide (keyYearAsc a ≤ keyYearAsc b)
  else decide (keyYearDesc a ≤ keyYearDesc b)

/-- Embedding of `list_shows(conn, sort, year_filter, corps_filter)` from `db.py`:
filter, aggregate per show, order by the selected key chain. -/
def list_shows (db : DB) (sort : String) (year_filter : Option Int)
    (corps_filter : Option String) : List ShowStats :=
  let rows := db.shows.filter fun s =>
    (match year_filter with
     | none => true
     | some y => s.year = y) &&
    (match corps_filter with
     | none => true
     | some c => if c = "" then true else corpsMatches c s)
  (rows.map (showStatsPlain db)).mergeSort (listShowsLe sort)

/-! ### Leaderboard: `list_top_shows_with_top_review` -/

/-- Per-review vote score: `COALESCE(SUM(v.vote), 0)` over the votes with
this review's `(show_id, review_user_id)`. -/
def vote_score (db : DB) (sid uid : Nat) : Int :=
  ((db.votes.filter fun v => v.show_id = sid ∧ v.review_user_id = uid).map (·.vote)).sum

/-- One row of the `review_scores` CTE (user-profile columns of the
`users` join omitted: the join is per-row on the review's author and
does not affect selection). -/
structure ReviewScore where
  show_id : Nat
  user_id : Nat
  review_text : String
  ts : Nat
  vscore : Int
  deriving Repr, DecidableEq

/-- The `review_scores` rows belonging to one show. -/
def reviewScoresFor (db : DB) (sid : Nat) : List ReviewScore :=
  (db.reviews.filter fun rv => rv.show_id = sid).map fun rv =>
    ⟨rv.show_id, rv.user_id, rv.review_text, rv.ts, vote_score db rv.show_id rv.user_id⟩

/-- Strictly earlier in the window order
`ORDER BY vote_score DESC, ts DESC` of `top_review_per_show`. -/
def revBetter (a b : ReviewScore) : Bool :=
  a.vscore > b.vscore ∨ (a.vscore = b.vscore ∧ a.ts > b.ts)

/-- The `rn = 1` row of the `ROW_NUMBER` window: a maximal element of the
window order (SQLite breaks full ties arbitrarily; this model keeps the
first such row). -/
def pickTop : List ReviewScore → Option ReviewScore
  | [] => none
  | r :: rs =>
    match pickTop rs with
    | none => some r
    | some b => if revBetter b r then some b else some r

/-- The `ORDER BY` key of `list_top_shows_with_top_review` for
`mode = "top"`: avg desc, count desc, year desc, id asc. -/
def keyTop (a : ShowStats) : Lex (ℚ × Lex (ℤ × Lex (ℤ × Nat))) :=
  toLex (-a.avg_rating, toLex (-(a.cnt : ℤ), toLex (-a.year, a.id)))

/-- The `ORDER BY` key for `mode = "bottom"`: avg asc, count desc,
year desc, id asc. -/
def keyBottom (a : ShowStats) : Lex (ℚ × Lex (ℤ × Lex (ℤ × Nat))) :=
  toLex (a.avg_rating, toLex (-(a.cnt : ℤ), toLex (-a.year, a.id)))

/-- Comparator for `mode = "top"`. -/
def leTop (a b : ShowStats) : Bool :=
  decide (keyTop a ≤ keyTop b)

/-- Comparator for `mode = "bottom"`. -/
def leBottom (a b : ShowStats) : Bool :=
  decide (keyBottom a ≤ keyBottom b)

/-- Embedding of `list_top_shows_with_top_review(conn, limit, mode)` from `db.py`:
aggregate every show, keep those with `cnt > 0`, order by the mode's key
chain, truncate to `limit`, and attach the `rn = 1` review of each show's
vote-score window (or `none` when the show has no reviews). -/
def list_top_shows_with_top_review (db : DB) (limit : Nat) (mode : String) :
    List (ShowStats × Option ReviewScore) :=
  let m := strLower (pyStrip (if mode = "" then "top" else mode))
  let le := if m = "bottom" then leBottom else leTop
  let kept := (db.shows.map (showStatsRounded db)).filter fun ss => 0 < ss.cnt
  ((kept.mergeSort le).take limit).map fun ss => (ss, pickTop (reviewScoresFor db ss.id))

/-! ### Generic row-store lemmas

Facts about `updateWhere` / `deleteWhere` / keyed lookups shared by the
upsert and toggle proofs. -/

theorem length_updateWhere {α : Type} (p : α → Bool) (f : α → α) (l : List α) :
    (updateWhere p f l).length = l.length := by
  simp [updateWhere]

theorem countP_updateWhere {α : Type} (p q : α → Bool) (f : α → α) (l : List α)
    (hqf : ∀ a, q (f a) = q a) :
    (updateWhere p f l).countP q = l.countP q := by
  rw [updateWhere, List.countP_map]
  apply List.countP_congr
  intro a _
  by_cases h : p a = true <;> simp [Function.comp, h, hqf]

theorem find?_updateWhere {α : Type} (p : α → Bool) (f : α → α) (l : List α)
    (hpf : ∀ a, p (f a) = p a) :
    (updateWhere p f l).find? p = (l.find? p).map f := by
  induction l with
  | nil => rfl
  | cons a l ih =>
    have hstep : updateWhere p f (a :: l) = (if p a then f a else a) :: updateWhere p f l := rfl
    rw [hstep]
    by_cases h : p a = true
    · rw [if_pos h, List.find?_cons_of_pos _ (by rw [hpf]; exact h),
        List.find?_cons_of_pos _ h]
      rfl
    · have h' : p a = false := by simpa using h
      rw [if_neg (by simp [h']), List.find?_cons_of_neg _ (by simp [h']),
        List.find?_cons_of_neg _ (by simp [h']), ih]

theorem updateWhere_key_val {α β : Type} (p : α → Bool) (f : α → α) (v : α → β)
    (c : β) (l : List α) (hv : ∀ a, v (f a) = c) :
    ∀ r ∈ updateWhere p f l, p r = true → v r = c := by
  intro r hr hpr
  rcases List.mem_map.mp hr with ⟨a, _, ha⟩
  by_cases h : p a = true
  · rw [← ha]; simp [h, hv]
  · exfalso
    rw [← ha] at hpr
    simp [h] at hpr

theorem countP_deleteWhere {α : Type} (p : α → Bool) (l : List α) :
    (deleteWhere p l).countP p = 0 := by
  rw [List.countP_eq_zero]
  intro a ha
  rcases List.mem_filter.mp ha with ⟨_, hpa⟩
  simpa using hpa

theorem find?_deleteWhere {α : Type} (p : α → Bool) (l : List α) :
    (deleteWhere p l).find? p = none := by
  rw [List.find?_eq_none]
  intro a ha
  rcases List.mem_filter.mp ha with ⟨_, hpa⟩
  simpa using hpa

theorem countP_eq_zero_of_find?_eq_none {α : Type} {p : α → Bool} {l : List α}
    (h : l.find? p = none) : l.countP p = 0 := by
  rw [List.countP_eq_zero]
  exact fun a ha => List.find?_eq_none.mp h a ha

theorem countP_pos_of_find?_eq_some {α : Type} {p : α → Bool} {l : List α} {a : α}
    (h : l.find? p = some a) : 0 < l.countP p :=
  List.countP_pos_iff.mpr ⟨a, List.mem_of_find?_eq_some h, List.find?_some h⟩

theorem eq_of_countP_le_one {α : Type} (p : α → Bool) (l : List α)
    (h : l.countP p ≤ 1) :
    ∀ a ∈ l, ∀ b ∈ l, p a = true → p b = true → a = b := by
  induction l with
  | nil => intro a ha; exact absurd ha (List.not_mem_nil a)
  | cons x xs ih =>
    intro a ha b hb hpa hpb
    rw [List.countP_cons] at h
    by_cases hx : p x = true
    · rw [if_pos hx] at h
      have hzero : xs.countP p = 0 := by omega
      have hnone : ∀ c ∈ xs, ¬ p c = true := List.countP_eq_zero.mp hzero
      have ha' : a = x := by
        rcases List.mem_cons.mp ha with h' | h'
        · exact h'
        · exact absurd hpa (hnone a h')
      have hb' : b = x := by
        rcases List.mem_cons.mp hb with h' | h'
        · exact h'
        · exact absurd hpb (hnone b h')
      rw [ha', hb']
    · have ha' : a ∈ xs := by
        rcases List.mem_cons.mp ha with h' | h'
        · exact absurd (h' ▸ hpa) hx
        · exact h'
      have hb' : b ∈ xs := by
        rcases List.mem_cons.mp hb with h' | h'
        · exact absurd (h' ▸ hpb) hx
        · exact h'
      exact ih (by simpa [hx] using h) a ha' b hb' hpa hpb

/-! ### Rating-ledger lemmas and C6 -/

/-- One `upsert_rating` call: assuming at most one stored row for the
key, afterwards there is exactly one, and every key row carries the
clamped value. -/
theorem upsert_rating_step (db : DB) (sid uid : Nat) (v : Int) (ts : Nat)
    (hinv : db.ratings.countP (ratingKeyIs sid uid) ≤ 1) :
    (upsert_rating db sid uid v ts).ratings.countP (ratingKeyIs sid uid) = 1 ∧
      ∀ r ∈ (upsert_rating db sid uid v ts).ratings, ratingKeyIs sid uid r = true →
        r.rating_half = max 0 (min 10 v) := by
  unfold upsert_rating
  by_cases h : db.ratings.any (ratingKeyIs sid uid) = true
  · rw [if_pos h]
    constructor
    · have heq := countP_updateWhere (ratingKeyIs sid uid) (ratingKeyIs sid uid)
        (fun r => { r with rating_half := max 0 (min 10 v), ts := ts })
        db.ratings (fun a => rfl)
      have hpos : 0 < db.ratings.countP (ratingKeyIs sid uid) :=
        List.countP_pos_iff.mpr (List.any_eq_true.mp h)
      simp only [heq]
      omega
    · exact updateWhere_key_val _ _ _ _ _ (fun a => rfl)
  · rw [if_neg h]
    have hall : ∀ a ∈ db.ratings, ¬ ratingKeyIs sid uid a = true := by
      intro a ha hpa
      exact h (List.any_eq_true.mpr ⟨a, ha, hpa⟩)
    have hz : db.ratings.countP (ratingKeyIs sid uid) = 0 :=
      List.countP_eq_zero.mpr hall
    constructor
    · rw [List.countP_append, hz]
      simp [ratingKeyIs]
    · intro r hr hkey
      rcases List.mem_append.mp hr with h1 | h1
      · exact absurd hkey (hall r h1)
      · rcases List.mem_singleton.mp h1 with rfl
        rfl

/-- C6: `upsert_rating` clamps its input to `[0, 10]` and never fails on
valid-shaped input (it is a total function on the model); after
`upsert_rating(show, user, v)` followed by `upsert_rating(show, user, v2)`
exactly one rating row exists for the `(show, user)` key and it carries
the clamp of `v2` to `[0, 10]`. -/
theorem upsertRating_overwrite (db : DB) (sid uid : Nat) (v v2 : Int) (ts1 ts2 : Nat)
    (hinv : db.ratings.countP (ratingKeyIs sid uid) ≤ 1) :
    ((upsert_rating (upsert_rating db sid uid v ts1) sid uid v2 ts2).ratings.countP
        (ratingKeyIs sid uid) = 1) ∧
      ∀ r ∈ (upsert_rating (upsert_rating db sid uid v ts1) sid uid v2 ts2).ratings,
        ratingKeyIs sid uid r = true →
          r.rating_half = max 0 (min 10 v2) ∧ 0 ≤ r.rating_half ∧ r.rating_half ≤ 10 := by
  have step1 := upsert_rating_step db sid uid v ts1 hinv
  have step2 := upsert_rating_step (upsert_rating db sid uid v ts1) sid uid v2 ts2
    (le_of_eq step1.1)
  refine ⟨step2.1, fun r hr hk => ⟨step2.2 r hr hk, ?_, ?_⟩⟩ <;>
    rw [step2.2 r hr hk] <;> omega

/-- C6 witness: the double upsert with `v = 15`, `v2 = -3` on the empty
store leaves one row, clamped to `0`. -/
theorem upsertRating_overwrite_witness :
    (upsert_rating (upsert_rating DB.empty 1 2 15 0) 1 2 (-3) 1).ratings.countP
      (ratingKeyIs 1 2) = 1 :=
  (upsertRating_overwrite DB.empty 1 2 15 (-3) 0 1 (by decide)).1

/-! ### Review-ledger validation and C7 -/

/-- Stripping leaves a list of all-`'a'` characters unchanged. -/
theorem stripList_replicate_a (n : Nat) :
    stripList (List.replicate n 'a') = List.replicate n 'a' := by
  have ha : pyIsSpace 'a' = false := by decide
  simp [stripList, List.dropWhile_replicate, ha, List.reverse_replicate]

/-- The fresh-insert case of `upsert_review`, stated symbolically so that
it can be instantiated with long texts without evaluating them. -/
theorem upsert_review_ok_fresh (db : DB) (sid uid : Nat) (t : String) (ts : Nat)
    (h1 : ¬ pyStrip t = "") (h2 : ¬ (pyStrip t).length > 5000)
    (hany : db.reviews.any (reviewKeyIs sid uid) = false) :
    upsert_review db sid uid t ts
      = .ok { db with reviews := db.reviews ++ [⟨sid, uid, pyStrip t, ts⟩] } := by
  unfold upsert_review
  rw [if_neg h1, if_neg h2, if_neg (by simp [hany])]

/-- The too-long case of `upsert_review`, stated symbolically. -/
theorem upsert_review_error_long (db : DB) (sid uid : Nat) (t : String) (ts : Nat)
    (h1 : ¬ pyStrip t = "") (h2 : (pyStrip t).length > 5000) :
    upsert_review db sid uid t ts = .error "Review is too long (max 5000 chars)." := by
  unfold upsert_review
  rw [if_neg h1, if_pos h2]

/-- C7: `upsert_review` trims the text; it fails (the spec's
`ValidationError`, modelled as the `.error` result carrying the Python
`ValueError` message) precisely when the trimmed text is empty or longer
than 5000 characters, and on success every stored row for the key holds
the trimmed text.  In particular a 5000-character text is accepted and a
5001-character text is rejected. -/
theorem upsertReview_validation :
    (∀ (db : DB) (sid uid : Nat) (t : String) (ts : Nat),
        (upsert_review db sid uid t ts).isOk = false ↔
          (pyStrip t = "" ∨ 5000 < (pyStrip t).length)) ∧
    (∀ (db : DB) (sid uid : Nat) (t : String) (ts : Nat) (d2 : DB),
        upsert_review db sid uid t ts = .ok d2 →
          ∀ r ∈ d2.reviews, reviewKeyIs sid uid r = true → r.review_text = pyStrip t) ∧
    (upsert_review DB.empty 1 1 (String.mk (List.replicate 5000 'a')) 0 =
      .ok { DB.empty with reviews := [⟨1, 1, String.mk (List.replicate 5000 'a'), 0⟩] }) ∧
    (upsert_review DB.empty 1 1 (String.mk (List.replicate 5001 'a')) 0 =
      .error "Review is too long (max 5000 chars).") := by
  have hiff : ∀ (db : DB) (sid uid : Nat) (t : String) (ts : Nat),
      (upsert_review db sid uid t ts).isOk = false ↔
        (pyStrip t = "" ∨ 5000 < (pyStrip t).length) := by
    intro db sid uid t ts
    unfold upsert_review
    by_cases h1 : pyStrip t = ""
    · simp [h1, Except.isOk, Except.toBool]
    · by_cases h2 : (pyStrip t).length > 5000
      · simp [h1, h2, Except.isOk, Except.toBool]
      · simp [h1, h2, Except.isOk, Except.toBool]
  have hmk : ∀ n, pyStrip (String.mk (List.replicate n 'a')) = String.mk (List.replicate n 'a') := by
    intro n
    unfold pyStrip
    rw [show (String.mk (List.replicate n 'a')).data = List.replicate n 'a' from rfl,
      stripList_replicate_a]
  have hlen : ∀ n, (String.mk (List.replicate n 'a')).length = n := by
    intro n
    show (List.replicate n 'a').length = n
    exact List.length_replicate n 'a'
  refine ⟨hiff, ?_, ?_, ?_⟩
  · intro db sid uid t ts d2 hok r hr hk
    revert hok
    unfold upsert_review
    by_cases h1 : pyStrip t = ""
    · simp [h1]
    · by_cases h2 : (pyStrip t).length > 5000
      · simp [h1, h2]
      · simp only [h1, h2, if_false, if_neg]
        intro hok
        by_cases hany : db.reviews.any (reviewKeyIs sid uid) = true
        · rw [if_pos hany] at hok
          cases hok
          exact updateWhere_key_val _ _ ReviewRow.review_text (pyStrip t) db.reviews
            (fun a => rfl) r hr hk
        · rw [if_neg hany] at hok
          cases hok
          rcases List.mem_append.mp hr with hmem | hmem
          · exact absurd hk fun hkk =>
              hany (List.any_eq_true.mpr ⟨r, hmem, hk⟩)
          · rcases List.mem_singleton.mp hmem with rfl
            rfl
  · have hne : ¬ pyStrip (String.mk (List.replicate 5000 'a')) = "" := by
      intro h
      have h5 : (pyStrip (String.mk (List.replicate 5000 'a'))).length = 5000 := by
        rw [hmk, hlen]
      rw [h] at h5
      exact absurd h5 (by decide)
    have hgt : ¬ (pyStrip (String.mk (List.replicate 5000 'a'))).length > 5000 := by
      rw [hmk, hlen]
      omega
    rw [upsert_review_ok_fresh DB.empty 1 1 _ 0 hne hgt rfl, hmk]
    rfl
  · have hne : ¬ pyStrip (String.mk (List.replicate 5001 'a')) = "" := by
      intro h
      have h5 : (pyStrip (String.mk (List.replicate 5001 'a'))).length = 5001 := by
        rw [hmk, hlen]
      rw [h] at h5
      exact absurd h5 (by decide)
    have hgt : (pyStrip (String.mk (List.replicate 5001 'a'))).length > 5000 := by
      rw [hmk, hlen]
      omega
    exact upsert_review_error_long DB.empty 1 1 _ 0 hne hgt

/-! ### C9: `add_show` input validation -/

/-- C9: `add_show` trims its inputs; when the trimmed corps or title is
empty it reports the validation failure `(False, None, "Missing corps or
title.")` (the spec's `ValidationError`) and leaves the database
unchanged — no show row is inserted. -/
theorem addShow_empty_input_rejected (db : DB) (year : Int) (corps title : String)
    (poster : Option String) (ts : Nat)
    (h : pyStrip corps = "" ∨ pyStrip title = "") :
    add_show db year corps title poster ts
      = (db, (false, none, "Missing corps or title.")) := by
  unfold add_show
  rcases h with h | h <;> simp [h]

/-- C9 witness: whitespace-only corps is rejected without touching the
empty store. -/
theorem addShow_empty_input_rejected_witness :
    add_show DB.empty 2017 "   " "Metamorph" none 0
      = (DB.empty, (false, none, "Missing corps or title.")) :=
  addShow_empty_input_rejected DB.empty 2017 "   " "Metamorph" none 0
    (Or.inl (by decide))

/-! ### Vote ledger: the three-state toggle -/

/-- The new vote row inserted by `set_review_vote` matches its own key. -/
theorem voteKeyIs_new (sid ruid vuid : Nat) (v : Int) (ts : Nat) :
    voteKeyIs sid ruid vuid ⟨sid, ruid, vuid, v, ts⟩ = true := by
  simp [voteKeyIs]

/-- One `set_review_vote` call: assuming at most one stored row for the
key, the observable per-key state follows the three-state toggle table
(insert / delete / switch) on the normalized vote, and at most one key
row remains. -/
theorem set_review_vote_step (db : DB) (sid ruid vuid : Nat) (v : Int) (ts : Nat)
    (hinv : db.votes.countP (voteKeyIs sid ruid vuid) ≤ 1) :
    (voteState (set_review_vote db sid ruid vuid v ts) sid ruid vuid =
      match voteState db sid ruid vuid with
      | none => some (if v > 0 then 1 else -1)
      | some w =>
        if w = (if v > 0 then 1 else -1) then none
        else some (if v > 0 then 1 else -1)) ∧
    (set_review_vote db sid ruid vuid v ts).votes.countP (voteKeyIs sid ruid vuid) ≤ 1 := by
  cases hf : db.votes.find? (voteKeyIs sid ruid vuid) with
  | none =>
    have hdb : set_review_vote db sid ruid vuid v ts
        = { db with votes := db.votes ++ [⟨sid, ruid, vuid, if v > 0 then 1 else -1, ts⟩] } := by
      simp only [set_review_vote, hf]
    have hz : db.votes.countP (voteKeyIs sid ruid vuid) = 0 :=
      countP_eq_zero_of_find?_eq_none hf
    constructor
    · rw [hdb]
      show ((db.votes ++ [_]).find? (voteKeyIs sid ruid vuid)).map VoteRow.vote
        = match (db.votes.find? (voteKeyIs sid ruid vuid)).map VoteRow.vote with
          | none => some (if v > 0 then 1 else -1)
          | some w => _
      rw [List.find?_append, hf]
      simp [List.find?_cons_of_pos _ (voteKeyIs_new sid ruid vuid _ ts)]
    · rw [hdb]
      show (db.votes ++ [_]).countP (voteKeyIs sid ruid vuid) ≤ 1
      rw [List.countP_append, hz]
      simp [voteKeyIs_new]
  | some cur =>
    by_cases hv : cur.vote = (if v > 0 then 1 else -1)
    · have hdb : set_review_vote db sid ruid vuid v ts
          = { db with votes := deleteWhere (voteKeyIs sid ruid vuid) db.votes } := by
        simp only [set_review_vote, hf, hv, if_pos]
      constructor
      · rw [hdb]
        show ((deleteWhere (voteKeyIs sid ruid vuid) db.votes).find?
            (voteKeyIs sid ruid vuid)).map VoteRow.vote = _
        rw [find?_deleteWhere]
        show (none : Option Int)
          = match (db.votes.find? (voteKeyIs sid ruid vuid)).map VoteRow.vote with
            | none => some (if v > 0 then 1 else -1)
            | some w => _
        rw [hf]
        simp [hv]
      · rw [hdb]
        show (deleteWhere (voteKeyIs sid ruid vuid) db.votes).countP
            (voteKeyIs sid ruid vuid) ≤ 1
        rw [countP_deleteWhere]
        omega
    · have hdb : set_review_vote db sid ruid vuid v ts
          = { db with votes := (updateWhere (voteKeyIs sid ruid vuid)
                (fun w => { w with vote := if v > 0 then 1 else -1, ts := ts }) db.votes) } := by
        simp only [set_review_vote, hf, hv, if_neg, if_false]
      constructor
      · rw [hdb]
        show ((updateWhere (voteKeyIs sid ruid vuid) _ db.votes).find?
            (voteKeyIs sid ruid vuid)).map VoteRow.vote = _
        rw [find?_updateWhere (voteKeyIs sid ruid vuid)
          (fun w => { w with vote := if v > 0 then 1 else -1, ts := ts })
          db.votes (fun a => rfl), hf]
        show some (if v > 0 then 1 else -1)
          = match (db.votes.find? (voteKeyIs sid ruid vuid)).map VoteRow.vote with
            | none => some (if v > 0 then 1 else -1)
            | some w => _
        rw [hf]
        simp [hv]
      · rw [hdb]
        show (updateWhere (voteKeyIs sid ruid vuid) _ db.votes).countP
            (voteKeyIs sid ruid vuid) ≤ 1
        rw [countP_updateWhere (voteKeyIs sid ruid vuid) (voteKeyIs sid ruid vuid)
          (fun w => { w with vote := if v > 0 then 1 else -1, ts := ts })
          db.votes (fun a => rfl)]
        exact hinv

/-- C2: `set_review_vote` normalizes its input (positive to `+1`,
non-positive to `-1`) and applies the three-state transition on the
stored row for the key — insert when absent, delete when equal, switch in
place when opposite — leaving at most one row for the key. -/
theorem setVote_toggle (db : DB) (sid ruid vuid : Nat) (v : Int) (ts : Nat)
    (hinv : db.votes.countP (voteKeyIs sid ruid vuid) ≤ 1) :
    (voteState (set_review_vote db sid ruid vuid v ts) sid ruid vuid =
      match voteState db sid ruid vuid with
      | none => some (if v > 0 then 1 else -1)
      | some w =>
        if w = (if v > 0 then 1 else -1) then none
        else some (if v > 0 then 1 else -1)) ∧
    (set_review_vote db sid ruid vuid v ts).votes.countP (voteKeyIs sid ruid vuid) ≤ 1 :=
  set_review_vote_step db sid ruid vuid v ts hinv

/-- C2 witness: a `+5` vote on the empty store normalizes to `+1` and
inserts a single row. -/
theorem setVote_toggle_witness :
    voteState (set_review_vote DB.empty 1 2 3 5 99) 1 2 3 =
      match voteState DB.empty 1 2 3 with
      | none => some (if (5 : Int) > 0 then 1 else -1)
      | some w =>
        if w = (if (5 : Int) > 0 then 1 else -1) then none
        else some (if (5 : Int) > 0 then 1 else -1) :=
  (setVote_toggle DB.empty 1 2 3 5 99 (by decide)).1

/-- C10 counterexample: with a stored `-1` vote for the key, submitting
`+1` twice switches the row and then deletes it, so the final state (no
row) differs from the starting state (`-1` row): double application of
the same vote is not the identity. -/
theorem setVote_double_not_identity :
    voteState (set_review_vote (set_review_vote
        { DB.empty with votes := [⟨1, 2, 3, -1, 0⟩] } 1 2 3 1 10) 1 2 3 1 11) 1 2 3
      ≠ voteState { DB.empty with votes := [⟨1, 2, 3, -1, 0⟩] } 1 2 3 := by
  decide

/-- C10 (amended): applying `set_review_vote` twice with the same vote
input returns the per-key state to its starting state exactly when that
start is no row or a row already carrying the normalized vote; from a row
with a different (opposite) vote the two calls end with no row. -/
theorem setVote_double (db : DB) (sid ruid vuid : Nat) (v : Int) (ts1 ts2 : Nat)
    (hinv : db.votes.countP (voteKeyIs sid ruid vuid) ≤ 1) :
    voteState (set_review_vote (set_review_vote db sid ruid vuid v ts1)
        sid ruid vuid v ts2) sid ruid vuid
      = match voteState db sid ruid vuid with
        | none => none
        | some w => if w = (if v > 0 then 1 else -1) then some w else none := by
  have step1 := set_review_vote_step db sid ruid vuid v ts1 hinv
  have step2 := set_review_vote_step (set_review_vote db sid ruid vuid v ts1)
    sid ruid vuid v ts2 step1.2
  rw [step2.1, step1.1]
  cases h0 : voteState db sid ruid vuid with
  | none => simp
  | some w =>
    by_cases hw : w = (if v > 0 then 1 else -1)
    · simp [hw]
    · simp [hw]

/-- C10 witness: from a stored `+1` row, voting `+5` twice (normalized to
`+1`) removes the row and re-inserts it, returning to the `+1` state. -/
theorem setVote_double_witness :
    voteState (set_review_vote (set_review_vote
        { DB.empty with votes := [⟨1, 2, 3, 1, 0⟩] } 1 2 3 5 10) 1 2 3 5 11) 1 2 3
      = match voteState { DB.empty with votes := [⟨1, 2, 3, 1, 0⟩] } 1 2 3 with
        | none => none
        | some w => if w = (if (5 : Int) > 0 then 1 else -1) then some w else none :=
  setVote_double { DB.empty with votes := [⟨1, 2, 3, 1, 0⟩] } 1 2 3 5 10 11 (by decide)

/-- C7 witness: a concrete call exercising the validation iff and, for
the conjunct with a hypothesis, the trimmed-storage guarantee on the
stored row of `upsert_review(1, 1, " hi ")`. -/
theorem upsertReview_validation_witness :
    ((upsert_review DB.empty 1 1 " hi " 0).isOk = false ↔
        (pyStrip " hi " = "" ∨ 5000 < (pyStrip " hi ").length)) ∧
      ReviewRow.review_text ⟨1, 1, "hi", 0⟩ = pyStrip " hi " :=
  ⟨upsertReview_validation.1 DB.empty 1 1 " hi " 0,
   upsertReview_validation.2.1 DB.empty 1 1 " hi " 0
     { DB.empty with reviews := [⟨1, 1, "hi", 0⟩] } (by decide)
     ⟨1, 1, "hi", 0⟩ (by decide) (by decide)⟩

/-! ### Role directory: C8 -/

/-- The store left by `create_role(conn, "Veterans!!")` on an empty
database. -/
def dbAfterVeterans : DB :=
  ((create_role DB.empty "Veterans!!" "" 1).toOption).getD DB.empty

/-- C8 counterexample: creating two roles both named "Veterans!!" does
not yield two stored roles.  The first creation stores slug `veterans`;
the second computes candidate slug `veterans-2` but its `INSERT` violates
the `roles.name UNIQUE` constraint and fails, leaving exactly one stored
role. -/
theorem createRole_same_name_fails :
    (create_role DB.empty "Veterans!!" "" 1).isOk = true ∧
      dbAfterVeterans.roles.map RoleRow.slug = ["veterans"] ∧
      (create_role dbAfterVeterans "Veterans!!" "" 2).isOk = false := by
  refine ⟨by decide, by decide, by decide⟩

/-- C8 (amended): slugs are derived by lower-casing, collapsing
non-alphanumerics to hyphens and trimming them, and collisions are
resolved by appending `-2`, `-3`, … — but only across *distinct* role
names: "Veterans!!" followed by "Veterans?" yields slugs `veterans` and
`veterans-2`, while re-using the identical name fails on the unique-name
constraint (see the counterexample). -/
theorem createRole_slug_collision :
    slugify "Veterans!!" = "veterans" ∧
      slugify "Veterans?" = "veterans" ∧
      ((create_role DB.empty "Veterans!!" "" 1).bind
          (fun d1 => create_role d1 "Veterans?" "" 2)).toOption.map
          (fun d => d.roles.map RoleRow.slug) = some ["veterans", "veterans-2"] := by
  refine ⟨by decide, by decide, by decide⟩

/-! ### Aggregate statistics: C5 -/

/-- The fields of one aggregate row of `list_shows` / `show_detail`,
expressed through the show's stored ratings. -/
theorem showStatsPlain_fields (db : DB) (s : ShowRow) :
    (showStatsPlain db s).id = s.id ∧
      (showStatsPlain db s).cnt = (ratingsFor db s.id).length ∧
      (showStatsPlain db s).avg_rating =
        (if (ratingsFor db s.id).length = 0 then 0
         else (((ratingsFor db s.id).map RatingRow.rating_half).sum : ℚ)
           / (ratingsFor db s.id).length / 2) := by
  refine ⟨rfl, rfl, ?_⟩
  by_cases h : (ratingsFor db s.id).length = 0
  · simp [showStatsPlain, h]
  · simp [showStatsPlain, h]

/-- A store with one show rated 8 and 10 half-units by two users. -/
def dbRatings810 : DB :=
  { DB.empty with
      shows := [⟨1, "Metamorph", "Blue Devils", 2017, none,
        norm_key 2017 "Blue Devils" "Metamorph", 0⟩],
      ratings := [⟨1, 1, 8, 10⟩, ⟨1, 2, 10, 11⟩] }

/-- C5: every row reported by `list_shows` (any sort mode and filters)
and by `show_detail` carries `cnt` equal to the number of stored rating
rows of that show, and `avg_rating` equal to the arithmetic mean of their
`rating_half` values divided by 2 (0 when the show has no ratings); in
particular a show with ratings `[8, 10]` reports `avg_rating = 4.5` and
`cnt = 2`. -/
theorem listShows_showDetail_stats :
    (∀ (db : DB) (sort : String) (yf : Option Int) (cf : Option String),
        ∀ e ∈ list_shows db sort yf cf,
          e.cnt = (ratingsFor db e.id).length ∧
            e.avg_rating =
              (if (ratingsFor db e.id).length = 0 then 0
               else (((ratingsFor db e.id).map RatingRow.rating_half).sum : ℚ)
                 / (ratingsFor db e.id).length / 2)) ∧
    (∀ (db : DB) (sid : Nat) (st : ShowStats),
        show_detail db sid = some st →
          st.cnt = (ratingsFor db st.id).length ∧
            st.avg_rating =
              (if (ratingsFor db st.id).length = 0 then 0
               else (((ratingsFor db st.id).map RatingRow.rating_half).sum : ℚ)
                 / (ratingsFor db st.id).length / 2)) ∧
    (show_detail dbRatings810 1).map (fun st => (st.avg_rating, st.cnt))
      = some ((9 : ℚ) / 2, 2) := by
  refine ⟨?_, ?_, ?_⟩
  · intro db sort yf cf e he
    simp only [list_shows] at he
    have hmem := (List.Perm.mem_iff (List.mergeSort_perm _ _)).mp he
    rcases List.mem_map.mp hmem with ⟨s, _, rfl⟩
    exact ⟨(showStatsPlain_fields db s).2.1, (showStatsPlain_fields db s).2.2⟩
  · intro db sid st hst
    simp only [show_detail] at hst
    rcases Option.map_eq_some'.mp hst with ⟨s, _, rfl⟩
    exact ⟨(showStatsPlain_fields db s).2.1, (showStatsPlain_fields db s).2.2⟩
  · have h : show_detail dbRatings810 1
        = some (showStatsPlain dbRatings810 ⟨1, "Metamorph", "Blue Devils", 2017, none,
            norm_key 2017 "Blue Devils" "Metamorph", 0⟩) := rfl
    have hr : ratingsFor dbRatings810 1 = [⟨1, 1, 8, 10⟩, ⟨1, 2, 10, 11⟩] := rfl
    rw [h]
    simp [showStatsPlain, hr]
    norm_num

/-- C5 witness: the aggregate row of the `[8, 10]`-rated show, reached
through `show_detail`. -/
theorem listShows_showDetail_stats_witness :
    (showStatsPlain dbRatings810 ⟨1, "Metamorph", "Blue Devils", 2017, none,
        norm_key 2017 "Blue Devils" "Metamorph", 0⟩).cnt
      = (ratingsFor dbRatings810 1).length ∧
    (showStatsPlain dbRatings810 ⟨1, "Metamorph", "Blue Devils", 2017, none,
        norm_key 2017 "Blue Devils" "Metamorph", 0⟩).avg_rating
      = (if (ratingsFor dbRatings810 1).length = 0 then 0
         else (((ratingsFor dbRatings810 1).map RatingRow.rating_half).sum : ℚ)
           / (ratingsFor dbRatings810 1).length / 2) :=
  listShows_showDetail_stats.2.1 dbRatings810 1
    (showStatsPlain dbRatings810 ⟨1, "Metamorph", "Blue Devils", 2017, none,
      norm_key 2017 "Blue Devils" "Metamorph", 0⟩) rfl

/-! ### Duplicate-show detection: C1 -/

/-- The number of stored shows carrying a given `norm_key`. -/
def keyCount (db : DB) (k : String) : Nat :=
  db.shows.countP (fun s => s.nkey = k)

/-- After one valid `add_show`, exactly one stored show carries the
computed `norm_key` (fresh insert when absent, untouched duplicate when
present), provided at most one did before. -/
theorem add_show_keyCount (db : DB) (y : Int) (c t : String) (p : Option String)
    (ts : Nat) (hc : ¬ pyStrip c = "") (ht : ¬ pyStrip t = "")
    (hinv : keyCount db (norm_key y (pyStrip c) (pyStrip t)) ≤ 1) :
    keyCount (add_show db y c t p ts).1 (norm_key y (pyStrip c) (pyStrip t)) = 1 := by
  simp only [add_show]
  rw [if_neg (by simp [hc, ht])]
  cases hf : db.shows.find? (fun s : ShowRow => s.nkey = norm_key y (pyStrip c) (pyStrip t)) with
  | none =>
    simp only [hf]
    have hz : db.shows.countP (fun s : ShowRow => s.nkey = norm_key y (pyStrip c) (pyStrip t)) = 0 :=
      countP_eq_zero_of_find?_eq_none hf
    show (db.shows ++ [_]).countP (fun s : ShowRow => s.nkey = norm_key y (pyStrip c) (pyStrip t)) = 1
    rw [List.countP_append, hz]
    simp
  | some row =>
    simp only [hf]
    have hpos : 0 < db.shows.countP (fun s : ShowRow => s.nkey = norm_key y (pyStrip c) (pyStrip t)) :=
      countP_pos_of_find?_eq_some hf
    by_cases hcond : (posterClean p).isSome = true ∧ noPoster row.poster_url = true
    · rw [if_pos hcond]
      show (updateWhere (fun s : ShowRow => s.id = row.id)
          (fun s : ShowRow => { s with poster_url := posterClean p }) db.shows).countP
          (fun s : ShowRow => s.nkey = norm_key y (pyStrip c) (pyStrip t)) = 1
      rw [countP_updateWhere (fun s : ShowRow => s.id = row.id)
        (fun s : ShowRow => s.nkey = norm_key y (pyStrip c) (pyStrip t))
        (fun s : ShowRow => { s with poster_url := posterClean p }) db.shows (fun a => rfl)]
      exact Nat.le_antisymm (by exact hinv) hpos
    · rw [if_neg hcond]
      exact Nat.le_antisymm (by exact hinv) hpos

/-- C1: starting from a store in which at most one show carries the key,
calling `add_show` with a valid triple and then again with any valid
triple normalizing to the same `norm_key` leaves exactly one stored show
with that key; the second call inserts no row (same length), and the
surviving row's poster is the second caller's cleaned poster exactly when
one was supplied and the existing row had no poster, and is otherwise
unchanged. -/
theorem addShow_dedup (db : DB) (y : Int) (c t : String) (p1 : Option String) (ts1 : Nat)
    (y2 : Int) (c2 t2 : String) (p2 : Option String) (ts2 : Nat)
    (hc : ¬ pyStrip c = "") (ht : ¬ pyStrip t = "")
    (hc2 : ¬ pyStrip c2 = "") (ht2 : ¬ pyStrip t2 = "")
    (hkey : norm_key y2 (pyStrip c2) (pyStrip t2) = norm_key y (pyStrip c) (pyStrip t))
    (hinv : keyCount db (norm_key y (pyStrip c) (pyStrip t)) ≤ 1) :
    keyCount (add_show (add_show db y c t p1 ts1).1 y2 c2 t2 p2 ts2).1
        (norm_key y (pyStrip c) (pyStrip t)) = 1 ∧
      ((add_show (add_show db y c t p1 ts1).1 y2 c2 t2 p2 ts2).1).shows.length
        = ((add_show db y c t p1 ts1).1).shows.length ∧
      ∀ r1 ∈ ((add_show db y c t p1 ts1).1).shows,
        r1.nkey = norm_key y (pyStrip c) (pyStrip t) →
        ∀ r2 ∈ ((add_show (add_show db y c t p1 ts1).1 y2 c2 t2 p2 ts2).1).shows,
          r2.nkey = norm_key y (pyStrip c) (pyStrip t) →
            r2.poster_url =
              if (posterClean p2).isSome = true ∧ noPoster r1.poster_url = true
              then posterClean p2 else r1.poster_url := by
  have h1 : keyCount (add_show db y c t p1 ts1).1 (norm_key y (pyStrip c) (pyStrip t)) = 1 :=
    add_show_keyCount db y c t p1 ts1 hc ht hinv
  generalize hdb1 : (add_show db y c t p1 ts1).1 = db1 at h1 ⊢
  -- the second call sees the shared key already present
  cases hf : db1.shows.find? (fun s => s.nkey = norm_key y2 (pyStrip c2) (pyStrip t2)) with
  | none =>
    exfalso
    rw [hkey] at hf
    have hz := countP_eq_zero_of_find?_eq_none hf
    rw [keyCount] at h1
    omega
  | some row1 =>
    have hrow1_mem : row1 ∈ db1.shows := List.mem_of_find?_eq_some hf
    have hrow1_key : row1.nkey = norm_key y (pyStrip c) (pyStrip t) := by
      have := List.find?_some hf
      rw [hkey] at this
      simpa using this
    have hsecond :
        (add_show db1 y2 c2 t2 p2 ts2).1 =
          if (posterClean p2).isSome = true ∧ noPoster row1.poster_url = true then
            { db1 with shows := (updateWhere (fun s : ShowRow => s.id = row1.id)
                (fun s : ShowRow => { s with poster_url := posterClean p2 }) db1.shows) }
          else db1 := by
      simp only [add_show]
      rw [if_neg (by simp [hc2, ht2])]
      simp only [hf]
      by_cases hcond : (posterClean p2).isSome = true ∧ noPoster row1.poster_url = true
      · rw [if_pos hcond, if_pos hcond]
      · rw [if_neg hcond, if_neg hcond]
    by_cases hcond : (posterClean p2).isSome = true ∧ noPoster row1.poster_url = true
    · rw [hsecond, if_pos hcond]
      refine ⟨?_, ?_, ?_⟩
      · show (updateWhere _ _ db1.shows).countP _ = 1
        rw [countP_updateWhere (fun s : ShowRow => s.id = row1.id)
          (fun s : ShowRow => s.nkey = norm_key y (pyStrip c) (pyStrip t))
          (fun s : ShowRow => { s with poster_url := posterClean p2 }) db1.shows (fun a => rfl)]
        exact h1
      · exact length_updateWhere _ _ _
      · intro r1 hr1 hk1 r2 hr2 hk2
        have hr1_eq : r1 = row1 :=
          eq_of_countP_le_one (fun s : ShowRow => s.nkey = norm_key y (pyStrip c) (pyStrip t))
            db1.shows (le_of_eq h1) r1 hr1 row1 hrow1_mem
            (by simpa using hk1) (by simpa using hrow1_key)
        have himg : ({ row1 with poster_url := posterClean p2 } : ShowRow)
            ∈ updateWhere (fun s : ShowRow => s.id = row1.id)
              (fun s : ShowRow => { s with poster_url := posterClean p2 }) db1.shows := by
          have : (fun s => if (s.id = row1.id : Bool) then
              ({ s with poster_url := posterClean p2 } : ShowRow) else s) row1
              = { row1 with poster_url := posterClean p2 } := by
            simp
          rw [updateWhere, ← this]
          exact List.mem_map_of_mem _ hrow1_mem
        have hcnt2 : (updateWhere (fun s : ShowRow => s.id = row1.id)
            (fun s : ShowRow => { s with poster_url := posterClean p2 }) db1.shows).countP
            (fun s : ShowRow => s.nkey = norm_key y (pyStrip c) (pyStrip t)) ≤ 1 := by
          rw [countP_updateWhere (fun s : ShowRow => s.id = row1.id)
            (fun s : ShowRow => s.nkey = norm_key y (pyStrip c) (pyStrip t))
            (fun s : ShowRow => { s with poster_url := posterClean p2 }) db1.shows (fun a => rfl)]
          exact le_of_eq h1
        have hr2_eq : r2 = { row1 with poster_url := posterClean p2 } :=
          eq_of_countP_le_one _ _ hcnt2 r2 hr2 _ himg
            (by simpa using hk2) (by simpa using hrow1_key)
        rw [hr2_eq, hr1_eq, if_pos hcond]
    · rw [hsecond, if_neg hcond]
      refine ⟨h1, rfl, ?_⟩
      intro r1 hr1 hk1 r2 hr2 hk2
      have hr1_eq : r1 = row1 :=
        eq_of_countP_le_one (fun s : ShowRow => s.nkey = norm_key y (pyStrip c) (pyStrip t))
          db1.shows (le_of_eq h1) r1 hr1 row1 hrow1_mem
          (by simpa using hk1) (by simpa using hrow1_key)
      have hr2_eq : r2 = row1 :=
        eq_of_countP_le_one (fun s : ShowRow => s.nkey = norm_key y (pyStrip c) (pyStrip t))
          db1.shows (le_of_eq h1) r2 hr2 row1 hrow1_mem
          (by simpa using hk2) (by simpa using hrow1_key)
      rw [hr1_eq, hr2_eq, if_neg hcond]

/-- C1 witness: inserting "Blue Devils / Metamorph" and then re-adding it
with different casing, spacing and punctuation leaves a single stored
show for the shared `norm_key`. -/
theorem addShow_dedup_witness :
    keyCount (add_show (add_show DB.empty 2017 "Blue Devils" "Metamorph" none 1).1
        2017 " BLUE  devils " "metamorph!" (some "p.jpg") 2).1
      (norm_key 2017 (pyStrip "Blue Devils") (pyStrip "Metamorph")) = 1 :=
  (addShow_dedup DB.empty 2017 "Blue Devils" "Metamorph" none 1
    2017 " BLUE  devils " "metamorph!" (some "p.jpg") 2
    (by decide) (by decide) (by decide) (by decide) (by decide) (by decide)).1

/-! ### Leaderboard ordering: C3 -/

/-- The body of `list_top_shows_with_top_review` with the mode's
comparator abstracted out. -/
def topShowsCore (db : DB) (limit : Nat) (le : ShowStats → ShowStats → Bool) :
    List (ShowStats × Option ReviewScore) :=
  ((((db.shows.map (showStatsRounded db)).filter fun ss => 0 < ss.cnt).mergeSort le).take
    limit).map fun ss => (ss, pickTop (reviewScoresFor db ss.id))

theorem list_top_eq_core_top (db : DB) (limit : Nat) :
    list_top_shows_with_top_review db limit "top" = topShowsCore db limit leTop := rfl

theorem list_top_eq_core_bottom (db : DB) (limit : Nat) :
    list_top_shows_with_top_review db limit "bottom" = topShowsCore db limit leBottom := rfl

theorem leTop_trans (a b c : ShowStats) (hab : leTop a b = true) (hbc : leTop b c = true) :
    leTop a c = true := by
  simp only [leTop, decide_eq_true_eq] at hab hbc ⊢
  exact le_trans hab hbc

theorem leTop_total (a b : ShowStats) : (leTop a b || leTop b a) = true := by
  simp only [leTop, Bool.or_eq_true, decide_eq_true_eq]
  exact le_total _ _

theorem leBottom_trans (a b c : ShowStats) (hab : leBottom a b = true)
    (hbc : leBottom b c = true) : leBottom a c = true := by
  simp only [leBottom, decide_eq_true_eq] at hab hbc ⊢
  exact le_trans hab hbc

theorem leBottom_total (a b : ShowStats) : (leBottom a b || leBottom b a) = true := by
  simp only [leBottom, Bool.or_eq_true, decide_eq_true_eq]
  exact le_total _ _

/-- The fields of one `show_stats` CTE row, through the show's ratings. -/
theorem showStatsRounded_fields (db : DB) (s : ShowRow) :
    (showStatsRounded db s).id = s.id ∧
      (showStatsRounded db s).cnt = (ratingsFor db s.id).length ∧
      ((ratingsFor db s.id).length ≠ 0 →
        (showStatsRounded db s).avg_rating =
          round2 ((((ratingsFor db s.id).map RatingRow.rating_half).sum : ℚ)
            / (ratingsFor db s.id).length / 2)) := by
  refine ⟨rfl, rfl, fun h => ?_⟩
  simp [showStatsRounded, h]

/-- The properties C3 asks of the leaderboard, for an arbitrary total
transitive comparator. -/
theorem topShowsCore_spec (db : DB) (limit : Nat) (le : ShowStats → ShowStats → Bool)
    (htrans : ∀ a b c, le a b = true → le b c = true → le a c = true)
    (htotal : ∀ a b, (le a b || le b a) = true) :
    (∀ e ∈ topShowsCore db limit le,
        0 < e.1.cnt ∧
          e.1.cnt = (ratingsFor db e.1.id).length ∧
          e.1.avg_rating = round2 ((((ratingsFor db e.1.id).map RatingRow.rating_half).sum : ℚ)
            / (ratingsFor db e.1.id).length / 2)) ∧
      (topShowsCore db limit le).length ≤ limit ∧
      List.Pairwise (fun x y => le x.1 y.1 = true) (topShowsCore db limit le) := by
  refine ⟨?_, ?_, ?_⟩
  · intro e he
    simp only [topShowsCore] at he
    rcases List.mem_map.mp he with ⟨ss, hss, rfl⟩
    have hss2 : ss ∈ ((db.shows.map (showStatsRounded db)).filter fun ss => 0 < ss.cnt).mergeSort le :=
      (List.take_sublist _ _).subset hss
    have hss3 : ss ∈ (db.shows.map (showStatsRounded db)).filter fun ss => 0 < ss.cnt :=
      (List.Perm.mem_iff (List.mergeSort_perm _ _)).mp hss2
    rcases List.mem_filter.mp hss3 with ⟨hssm, hposb⟩
    rcases List.mem_map.mp hssm with ⟨s, _, rfl⟩
    have hpos : 0 < (showStatsRounded db s).cnt := by simpa using hposb
    refine ⟨hpos, rfl, ?_⟩
    have hne : (ratingsFor db s.id).length ≠ 0 := by
      have hcnt : (showStatsRounded db s).cnt = (ratingsFor db s.id).length := rfl
      omega
    exact (showStatsRounded_fields db s).2.2 hne
  · simp only [topShowsCore]
    rw [List.length_map]
    exact List.length_take_le _ _
  · simp only [topShowsCore]
    have hsorted : List.Pairwise (fun a b => le a b = true)
        (((db.shows.map (showStatsRounded db)).filter fun ss => 0 < ss.cnt).mergeSort le) :=
      List.sorted_mergeSort htrans htotal _
    have htake := List.Pairwise.sublist (List.take_sublist limit _) hsorted
    exact List.pairwise_map.mpr htake

/-- C3: for either leaderboard mode, every returned entry has at least
one rating (`count > 0`), reports `cnt` as its rating count and
`avg_rating` as the two-decimal rounding of the mean half-star value
divided by 2, and the sequence is truncated to `limit` entries and is
sorted by the mode's key chain: avg desc (`top`) / avg asc (`bottom`),
then count desc, year desc, id asc. -/
theorem topShows_ordering (db : DB) (limit : Nat) (mode : String)
    (hmode : mode = "top" ∨ mode = "bottom") :
    (∀ e ∈ list_top_shows_with_top_review db limit mode,
        0 < e.1.cnt ∧
          e.1.cnt = (ratingsFor db e.1.id).length ∧
          e.1.avg_rating = round2 ((((ratingsFor db e.1.id).map RatingRow.rating_half).sum : ℚ)
            / (ratingsFor db e.1.id).length / 2)) ∧
      (list_top_shows_with_top_review db limit mode).length ≤ limit ∧
      List.Pairwise (fun x y =>
          (if mode = "bottom" then leBottom else leTop) x.1 y.1 = true)
        (list_top_shows_with_top_review db limit mode) := by
  rcases hmode with rfl | rfl
  · rw [list_top_eq_core_top]
    have h := topShowsCore_spec db limit leTop leTop_trans leTop_total
    refine ⟨h.1, h.2.1, ?_⟩
    simpa using h.2.2
  · rw [list_top_eq_core_bottom]
    have h := topShowsCore_spec db limit leBottom leBottom_trans leBottom_total
    refine ⟨h.1, h.2.1, ?_⟩
    simpa using h.2.2

/-- C3 witness: the leaderboard of the `[8, 10]`-rated store is within
the requested limit. -/
theorem topShows_ordering_witness :
    (list_top_shows_with_top_review dbRatings810 10 "top").length ≤ 10 :=
  (topShows_ordering dbRatings810 10 "top" (Or.inl rfl)).2.1

/-! ### Best-review selection: C4 -/

theorem revBetter_irrefl (a : ReviewScore) : revBetter a a = false :=
  decide_eq_false (by omega)

theorem revBetter_asymm (a b : ReviewScore) (h : revBetter a b = true) :
    revBetter b a = false := by
  have hp : a.vscore > b.vscore ∨ (a.vscore = b.vscore ∧ a.ts > b.ts) :=
    of_decide_eq_true h
  exact decide_eq_false (by omega)

theorem revBetter_neg_trans (a b c : ReviewScore) (hab : revBetter a b = false)
    (hbc : revBetter b c = false) : revBetter a c = false := by
  have h1 : ¬ (a.vscore > b.vscore ∨ (a.vscore = b.vscore ∧ a.ts > b.ts)) :=
    of_decide_eq_false hab
  have h2 : ¬ (b.vscore > c.vscore ∨ (b.vscore = c.vscore ∧ b.ts > c.ts)) :=
    of_decide_eq_false hbc
  exact decide_eq_false (by omega)

/-- A nonempty window always yields a selected row, computed by this unfolding. -/
theorem pickTop_cons (r : ReviewScore) (rs : List ReviewScore) :
    pickTop (r :: rs) = some (match pickTop rs with
      | none => r
      | some b => if revBetter b r then b else r) := by
  simp only [pickTop]
  cases pickTop rs with
  | none => rfl
  | some b => by_cases hb : revBetter b r = true <;> simp [hb]

theorem pickTop_eq_none_iff (l : List ReviewScore) : pickTop l = none ↔ l = [] := by
  cases l with
  | nil => simp [pickTop]
  | cons r rs => rw [pickTop_cons]; simp

/-- The selected row is a member of the window and no row of the window
is strictly better in the `(vote_score, ts)` order. -/
theorem pickTop_spec (l : List ReviewScore) (b : ReviewScore) (hb : pickTop l = some b) :
    b ∈ l ∧ ∀ r ∈ l, revBetter r b = false := by
  induction l generalizing b with
  | nil => cases hb
  | cons x xs ih =>
    rw [pickTop_cons] at hb
    injection hb with hb
    cases hpk : pickTop xs with
    | none =>
      simp only [hpk] at hb
      subst hb
      have hxs : xs = [] := (pickTop_eq_none_iff xs).mp hpk
      subst hxs
      refine ⟨List.mem_singleton_self _, ?_⟩
      intro r hr
      rcases List.mem_singleton.mp hr with rfl
      exact revBetter_irrefl r
    | some b0 =>
      simp only [hpk] at hb
      obtain ⟨hmem0, hmax0⟩ := ih b0 hpk
      by_cases hb0 : revBetter b0 x = true
      · rw [if_pos hb0] at hb
        subst hb
        refine ⟨List.mem_cons_of_mem _ hmem0, ?_⟩
        intro r hr
        rcases List.mem_cons.mp hr with rfl | hrs
        · exact revBetter_asymm _ _ hb0
        · exact hmax0 r hrs
      · rw [if_neg hb0] at hb
        subst hb
        refine ⟨List.mem_cons_self _ _, ?_⟩
        intro r hr
        rcases List.mem_cons.mp hr with rfl | hrs
        · exact revBetter_irrefl r
        · exact revBetter_neg_trans r b0 x (hmax0 r hrs) (by simpa using hb0)

/-- Rows of the `review_scores` window of one show carry that show's id
and the vote-score sum of their review. -/
theorem reviewScoresFor_fields (db : DB) (sid : Nat) (b : ReviewScore)
    (hb : b ∈ reviewScoresFor db sid) :
    b.show_id = sid ∧ b.vscore = vote_score db sid b.user_id := by
  rcases List.mem_map.mp hb with ⟨rv, hrv, rfl⟩
  rcases List.mem_filter.mp hrv with ⟨_, hsid⟩
  have hsid2 : rv.show_id = sid := by simpa using hsid
  constructor
  · exact hsid2
  · show vote_score db rv.show_id rv.user_id = vote_score db sid rv.user_id
    rw [hsid2]

/-- C4: each leaderboard entry attaches no best review exactly when the
show has no reviews; an attached best review is a review of that show,
its score is the sum of the votes on it (0 when none), and no other
review of the show has a higher vote score nor an equal score with a more
recent timestamp. -/
theorem topShows_best_review (db : DB) (limit : Nat) (mode : String) :
    ∀ e ∈ list_top_shows_with_top_review db limit mode,
      (e.2 = none ↔ reviewScoresFor db e.1.id = []) ∧
      ∀ b, e.2 = some b →
        b ∈ reviewScoresFor db e.1.id ∧
          b.vscore = vote_score db e.1.id b.user_id ∧
          ∀ r ∈ reviewScoresFor db e.1.id, revBetter r b = false := by
  intro e he
  simp only [list_top_shows_with_top_review] at he
  rcases List.mem_map.mp he with ⟨ss, _, rfl⟩
  refine ⟨pickTop_eq_none_iff _, ?_⟩
  intro b hb
  obtain ⟨hmem, hmax⟩ := pickTop_spec _ b hb
  obtain ⟨_, hvs⟩ := reviewScoresFor_fields db ss.id b hmem
  exact ⟨hmem, hvs, hmax⟩

/-- A one-show store with one rating and one review (no votes). -/
def dbW4 : DB :=
  { DB.empty with
      shows := [⟨1, "M", "BD", 2017, none, "k", 0⟩],
      ratings := [⟨1, 1, 8, 0⟩],
      reviews := [⟨1, 2, "Great show", 5⟩] }

/-- The aggregate row of the single show of `dbW4`. -/
def ssW4 : ShowStats := showStatsRounded dbW4 ⟨1, "M", "BD", 2017, none, "k", 0⟩

/-- The single review of `dbW4` as a window row (score 0, no votes). -/
def bW4 : ReviewScore := ⟨1, 2, "Great show", 5, 0⟩

/-- The single leaderboard entry of `dbW4`. -/
theorem memW4 : (ssW4, some bW4) ∈ list_top_shows_with_top_review dbW4 1 "top" := by
  rw [list_top_eq_core_top]
  show (ssW4, some bW4) ∈ ((((dbW4.shows.map (showStatsRounded dbW4)).filter
      fun ss => 0 < ss.cnt).mergeSort leTop).take 1).map
      fun ss => (ss, pickTop (reviewScoresFor dbW4 ss.id))
  have h1 : ((dbW4.shows.map (showStatsRounded dbW4)).filter fun ss => 0 < ss.cnt)
      = [ssW4] := rfl
  rw [h1, List.mergeSort_singleton]
  show (ssW4, some bW4) ∈ [(ssW4, pickTop (reviewScoresFor dbW4 ssW4.id))]
  have h2 : pickTop (reviewScoresFor dbW4 ssW4.id) = some bW4 := by decide
  rw [h2]
  exact List.mem_singleton_self _

/-- C4 witness: the attached best review of `dbW4`'s single entry is the
stored review of show 1. -/
theorem topShows_best_review_witness : bW4 ∈ reviewScoresFor dbW4 1 :=
  (((topShows_best_review dbW4 1 "top") (ssW4, some bW4) memW4).2 bW4 rfl).1

end Pressboxd
